import Mathlib

/-!
Verification development for the MPC controller node
(`src/ros/src/mpc/src/mpc_node.cpp`).

The C++ code is shallowly embedded: real (`double`) arithmetic is modelled
over a generic linear ordered field `K` (instantiated with `ℚ` for concrete
evaluation and with `ℝ` where the transcendental functions matter), the
transcendental functions (`sin`, `cos`, `atan`, `atan2`) and the external
collaborators (`polyfit` from the helper header, `MPC::Solve`) are passed in
as function parameters, and the C++ `size_t`/`int` mixed-mode index
arithmetic of the window extraction is modelled exactly, with the 64-bit
unsigned conversion made explicit.
-/

namespace MpcNode

variable {K : Type} [LinearOrderedField K]

/-! ## Vehicle state holder (member variables of `MPCControllerNode`) -/

/-- The mutable member state of `MPCControllerNode`: reference path
(`m_pts_x`, `m_pts_y`), speed, position, heading, the four readiness flags,
and the last commanded actuator values (`m_steer`, `m_throttle`). -/
structure NodeState (K : Type) where
  pts_x : List K
  pts_y : List K
  pts_OK : Bool
  speed : K
  speed_OK : Bool
  pos_x : K
  pos_y : K
  pos_OK : Bool
  psi : K
  psi_OK : Bool
  steer : K
  throttle : K

/-- Constructor state (`MPCControllerNode::MPCControllerNode`): all four
readiness flags start `false`, the actuator history starts at 0. The
numeric pose/speed members are uninitialized doubles in C++, so they are
parameters here. The path vectors are default-constructed (empty). -/
def initState (x0 y0 v0 psi0 : K) : NodeState K :=
  { pts_x := [], pts_y := [], pts_OK := false,
    speed := v0, speed_OK := false,
    pos_x := x0, pos_y := y0, pos_OK := false,
    psi := psi0, psi_OK := false,
    steer := 0, throttle := 0 }

/-- `MPCControllerNode::centerline_cb`: replace the path point lists
wholesale and set `m_pts_OK`. -/
def centerline_cb (st : NodeState K) (points : List (K × K)) : NodeState K :=
  { st with
    pts_x := points.map Prod.fst,
    pts_y := points.map Prod.snd,
    pts_OK := true }

/-- `MPCControllerNode::odom_cb`: record forward speed and set `m_speed_OK`. -/
def odom_cb (st : NodeState K) (v : K) : NodeState K :=
  { st with speed := v, speed_OK := true }

/-- `MPCControllerNode::pf_pose_odom_cb`: record position, set `m_pos_OK`,
derive the yaw angle from the orientation quaternion via
`atan2(2(wz + xy), 1 - 2(y^2 + z^2))`, and set `m_psi_OK`. -/
def pf_pose_odom_cb (atan2f : K → K → K) (st : NodeState K)
    (px py ow ox oy oz : K) : NodeState K :=
  { st with
    pos_x := px, pos_y := py, pos_OK := true,
    psi := atan2f (2 * (ow * oz + ox * oy)) (1 - 2 * (oy * oy + oz * oz)),
    psi_OK := true }

/-- The readiness conjunction tested at the top of `MPCControllerNode::loop`:
`m_pts_OK and m_speed_OK and m_pos_OK and m_psi_OK`. -/
def readyFlags (st : NodeState K) : Bool :=
  st.pts_OK && st.speed_OK && st.pos_OK && st.psi_OK

/-! ## Nearest-point search (`MPCControllerNode::find_closest`) -/

/-- Squared Euclidean distance `diff_x*diff_x + diff_y*diff_y` as computed
inside `find_closest`. -/
def sqDist (px py : K) (p : K × K) : K :=
  (p.1 - px) * (p.1 - px) + (p.2 - py) * (p.2 - py)

/-- The scanning loop of `find_closest`: carries the running
`(closest_idx, closest_dist)` pair and the current index, updating on a
strict `<` comparison. -/
def fcAux (px py : K) : List (K × K) → ℕ → Int × K → Int × K
  | [], _, best => best
  | p :: rest, i, best =>
      if sqDist px py p < best.2 then fcAux px py rest (i + 1) ((i : Int), sqDist px py p)
      else fcAux px py rest (i + 1) best

/-- `MPCControllerNode::find_closest`: starts from `closest_idx = -1` and
`closest_dist = 999999999`, scans all points. -/
def find_closest (xs ys : List K) (px py : K) : Int :=
  (fcAux px py (xs.zip ys) 0 (-1, 999999999)).1

/-! ## Circular window extraction (`loop`, lines 187-197) -/

/-- The index computation `int idx = (closest_idx + i*STEP_POLY) % m_pts_x.size()`
exactly as C++ evaluates it: `closest_idx` (a signed `int`, possibly negative
after the `NUM_STEPS_BACK` back-shift) is converted to the 64-bit unsigned
`size_t`, the sum wraps modulo `2^64`, and the final `%` is the unsigned
remainder by the path length. -/
def wrapIdx64 (base : Int) (k stride n : ℕ) : ℕ :=
  (((base % ((2 : Int) ^ 64)).toNat + k * stride) % 2 ^ 64) % n

/-- The index the specification prescribes for the k-th window point: the
mathematical modulo `(closest_idx - back_offset + k*stride) mod path_length`,
yielding a value in `[0, path_length)`. Stated for comparison with
`wrapIdx64`. -/
def mathIdx (base : Int) (k stride n : ℕ) : ℕ :=
  ((base + (k * stride : ℕ)) % (n : Int)).toNat

/-- The window-extraction loop (`loop`, lines 193-197): collect
`NUM_STEPS_POLY` points at stride `STEP_POLY` starting from the back-shifted
index, using the C++ index arithmetic `wrapIdx64`. -/
def windowExtract (xs ys : List K) (base : Int) (count stride : ℕ) :
    List (K × K) :=
  (List.range count).map (fun k =>
    let idx := wrapIdx64 base k stride xs.length
    (xs.getD idx 0, ys.getD idx 0))

/-! ## Frame transformation and stability guard (`loop`, lines 208-240) -/

/-- Global-to-vehicle frame transformation of one window point
(`loop`, lines 209-214). -/
def toVehicleFrame (px py sinPsi cosPsi : K) (p : K × K) : K × K :=
  let dx := p.1 - px
  let dy := p.2 - py
  (dx * cosPsi + dy * sinPsi, -dx * sinPsi + dy * cosPsi)

/-- The stability-guard loop (`loop`, lines 208-240) on the transformed
window: point `i` is pushed unconditionally while `i ≤ POLY_DEGREE`; for
`i > POLY_DEGREE` the loop `break`s (accepting nothing further) as soon as
`x_rot - xvals_vec[i-1] < X_DELTA_MIN_VALUE`, where `xvals_vec[i-1]` is the
previously pushed x-coordinate. -/
def sgGo (D : ℕ) (δ : K) : K → ℕ → List (K × K) → List (K × K)
  | _, _, [] => []
  | prevX, i, (x, y) :: rest =>
      if D < i ∧ x - prevX < δ then []
      else (x, y) :: sgGo D δ x (i + 1) rest

/-- The accepted (truncated) window handed to `polyfit`. The initial
`prevX` argument is irrelevant: the delta test never fires at `i = 0`. -/
def stabilityGuard (pts : List (K × K)) (D : ℕ) (δ : K) : List (K × K) :=
  sgGo D δ 0 0 pts

/-- The position of the first `break` of the stability guard, as an index
into the x-coordinate sequence of the transformed window (the window length
when no delta violation occurs). Specification-side companion of
`stabilityGuard` used to state its characterization. -/
def fbGo (D : ℕ) (δ : K) : K → ℕ → List K → ℕ
  | _, i, [] => i
  | prevX, i, x :: rest =>
      if D < i ∧ x - prevX < δ then i
      else fbGo D δ x (i + 1) rest

/-- First-violation position of a window x-sequence (its length when all
checked deltas are at least the threshold). -/
def firstBreak (xs : List K) (D : ℕ) (δ : K) : ℕ :=
  fbGo D δ 0 0 xs

/-! ## Error extraction (`loop`, lines 251-258) -/

/-- Modelled from the spec: `polyeval` is declared in a helper header that is
not among the sources; section 4.7 of the spec uses it only as polynomial
evaluation of the fitted coefficient vector (`cte = polynomial(0)`), so it is
modelled as evaluation of `c0 + c1*x + c2*x^2 + ...`. -/
def polyeval (coeffs : List K) (x : K) : K :=
  match coeffs with
  | [] => 0
  | c :: cs => c + x * polyeval cs x

/-- Error extraction (`loop`, lines 254-258): `cte = polyeval(coeffs, 0)` and
`epsi = -atan(coeffs[1])`. -/
def errorExtract (atanf : K → K) (coeffs : List K) : K × K :=
  (polyeval coeffs 0, - atanf (coeffs.getD 1 0))

/-! ## The control loop body (`MPCControllerNode::loop`) -/

/-- The configuration constants the loop body reads: `m_latency`, `Lf()`,
`NUM_STEPS_BACK`, `NUM_STEPS_POLY`, `STEP_POLY`, `POLY_DEGREE`,
`X_DELTA_MIN_VALUE` and `CENTER_IN_DZIK`. They are declared in headers that
are not among the sources, so they are free parameters here. -/
structure LoopCfg (K : Type) where
  latency : K
  lf : K
  numStepsBack : ℕ
  numStepsPoly : ℕ
  stepPoly : ℕ
  polyDegree : ℕ
  xDeltaMin : K
  centerInDzik : K

/-- The external functions the loop body calls: the transcendental functions
on doubles and the two external collaborators `polyfit` (helper header) and
`MPC::Solve` (the optimizer), both outside the given sources. -/
structure LoopExt (K : Type) where
  sinf : K → K
  cosf : K → K
  atanf : K → K
  polyfitf : List K → List K → ℕ → List K
  solvef : List K → List K → List K

/-- Observable outcome of one iteration of the `while` loop: the successor
member state, the steering command published on `/mpc/angle` (if any),
whether `MPC::Solve` was invoked, the readiness flags named by the
`No optimization` diagnostic (if it was emitted), the latency-compensated
state, the number of points handed to `polyfit`, and the extracted error
pair. -/
structure LoopOutput (K : Type) where
  st' : NodeState K
  publishedAngle : Option K
  solverCalled : Bool
  warnFlags : Option (Bool × Bool × Bool × Bool)
  predicted : Option (K × K × K × K)
  fitCount : Option ℕ
  cteEpsi : Option (K × K)

/-- One iteration of `MPCControllerNode::loop` (lines 177-315), in source
order: readiness gate, latency compensation, nearest-point search,
`NUM_STEPS_BACK` back-shift, circular window extraction, frame
transformation with stability guard, `polyfit`, error extraction, solver
invocation, actuator remapping `m_steer = CENTER_IN_DZIK - vars[0]` and
publication. Only `m_steer` is written back; `m_throttle` is not. -/
def loopBody (cfg : LoopCfg K) (ext : LoopExt K) (st : NodeState K) :
    LoopOutput K :=
  if readyFlags st then
    let v_lat := st.speed + cfg.latency * st.throttle
    let psi_lat := st.psi - cfg.latency * (v_lat * st.steer / cfg.lf)
    let pos_x_lat := st.pos_x + cfg.latency * (v_lat * ext.cosf psi_lat)
    let pos_y_lat := st.pos_y + cfg.latency * (v_lat * ext.sinf psi_lat)
    let closest_idx :=
      find_closest st.pts_x st.pts_y pos_x_lat pos_y_lat - (cfg.numStepsBack : Int)
    let closest_pts :=
      windowExtract st.pts_x st.pts_y closest_idx cfg.numStepsPoly cfg.stepPoly
    let sin_psi_lat := ext.sinf psi_lat
    let cos_psi_lat := ext.cosf psi_lat
    let accepted :=
      stabilityGuard
        (closest_pts.map (toVehicleFrame pos_x_lat pos_y_lat sin_psi_lat cos_psi_lat))
        cfg.polyDegree cfg.xDeltaMin
    let coeffs := ext.polyfitf (accepted.map Prod.fst) (accepted.map Prod.snd) cfg.polyDegree
    let errs := errorExtract ext.atanf coeffs
    let vars := ext.solvef [0, 0, 0, v_lat, errs.1, errs.2] coeffs
    let steer' := cfg.centerInDzik - vars.getD 0 0
    { st' := { st with steer := steer' },
      publishedAngle := some steer',
      solverCalled := true,
      warnFlags := none,
      predicted := some (v_lat, psi_lat, pos_x_lat, pos_y_lat),
      fitCount := some accepted.length,
      cteEpsi := some errs }
  else
    { st' := st,
      publishedAngle := none,
      solverCalled := false,
      warnFlags := some (st.pts_OK, st.speed_OK, st.pos_OK, st.psi_OK),
      predicted := none,
      fitCount := none,
      cteEpsi := none }

/-- The specification's latency-compensation equations (spec section 4.2),
written exactly as the spec gives them, with the updated speed and heading
used in the later equations. Stated separately so the loop body can be
compared against it. -/
def specLatencyStep (cfg : LoopCfg K) (ext : LoopExt K) (st : NodeState K) :
    K × K × K × K :=
  let v := st.speed + cfg.latency * st.throttle
  let p := st.psi - cfg.latency * (v * st.steer / cfg.lf)
  (v, p,
   st.pos_x + cfg.latency * (v * ext.cosf p),
   st.pos_y + cfg.latency * (v * ext.sinf p))

/-- Iterated loop ticks with no intervening callbacks. -/
def iterateTicks (cfg : LoopCfg K) (ext : LoopExt K) : ℕ → NodeState K → NodeState K
  | 0, st => st
  | n + 1, st => iterateTicks cfg ext n (loopBody cfg ext st).st'

/-! ## The asynchronous event model (callbacks interleaved with loop ticks) -/

/-- An event acting on the node state: one of the three subscription
callbacks, or one control-loop iteration. -/
inductive Event (K : Type) where
  | centerline (points : List (K × K))
  | odom (v : K)
  | pfPose (px py ow ox oy oz : K)
  | tick

/-- Effect of a single event on the member state. -/
def applyEvent (cfg : LoopCfg K) (ext : LoopExt K) (atan2f : K → K → K)
    (e : Event K) (st : NodeState K) : NodeState K :=
  match e with
  | Event.centerline points => centerline_cb st points
  | Event.odom v => odom_cb st v
  | Event.pfPose px py ow ox oy oz => pf_pose_odom_cb atan2f st px py ow ox oy oz
  | Event.tick => (loopBody cfg ext st).st'

/-- A run: fold a list of events over a state. -/
def runEvents (cfg : LoopCfg K) (ext : LoopExt K) (atan2f : K → K → K)
    (es : List (Event K)) (st : NodeState K) : NodeState K :=
  es.foldl (fun s e => applyEvent cfg ext atan2f e s) st

/-! ## Startup argument parsing (`main`, lines 340-382) -/

/-- Digit-scanning core shared by the `atoi`/`atof` models: consumes leading
decimal digits, returning the accumulated value, the number of digits
consumed, and the rest of the characters. -/
def parseDigits : List Char → ℕ → ℕ → ℕ × ℕ × List Char
  | [], acc, cnt => (acc, cnt, [])
  | c :: rest, acc, cnt =>
      if c.isDigit then parseDigits rest (acc * 10 + (c.toNat - 48)) (cnt + 1)
      else (acc, cnt, c :: rest)

/-- Model of C `atoi` on the argument strings: an optional sign followed by
leading decimal digits; anything unparsable yields 0 without signaling an
error. -/
def cAtoi (s : String) : Int :=
  match s.data with
  | '-' :: rest => - ((parseDigits rest 0 0).1 : Int)
  | '+' :: rest => ((parseDigits rest 0 0).1 : Int)
  | l => ((parseDigits l 0 0).1 : Int)

/-- Unsigned part of the `atof` model: integer digits, optionally followed
by a decimal point and fractional digits. -/
def cAtofCore (l : List Char) : ℚ :=
  match parseDigits l 0 0 with
  | (ip, _, rest) =>
    match rest with
    | '.' :: frac =>
        match parseDigits frac 0 0 with
        | (fp, fc, _) => (ip : ℚ) + (fp : ℚ) / (10 : ℚ) ^ fc
    | _ => (ip : ℚ)

/-- Model of C `atof` on the argument strings: optional sign, digits,
optional fraction; anything unparsable yields 0.0 without signaling an
error. -/
def cAtof (s : String) : ℚ :=
  match s.data with
  | '-' :: rest => - cAtofCore rest
  | '+' :: rest => cAtofCore rest
  | l => cAtofCore l

/-- The `Params` structure filled in by `main` from `argv[1..11]`. -/
structure CParams where
  steps_ahead : Int
  dt : ℚ
  latency : ℚ
  cte_coeff : ℚ
  epsi_coeff : ℚ
  speed_coeff : ℚ
  acc_coeff : ℚ
  steer_coeff : ℚ
  consec_acc_coeff : ℚ
  consec_steer_coeff : ℚ
  debug : Bool
deriving DecidableEq

/-- Outcome of `main` before the control loop: either a non-zero exit
(`return 1`) or entry into `mpc_node.loop()` with the parsed parameters. -/
inductive MainOutcome where
  | exitFailure : MainOutcome
  | enterLoop : CParams → MainOutcome
deriving DecidableEq

/-- The parameter record `main` builds when `argc == 12`, given the debug
flag value. -/
def parseParams (argv : List String) (dbg : Bool) : CParams :=
  { steps_ahead := cAtoi (argv.getD 1 ""),
    dt := cAtof (argv.getD 2 ""),
    latency := cAtof (argv.getD 3 ""),
    cte_coeff := cAtof (argv.getD 4 ""),
    epsi_coeff := cAtof (argv.getD 5 ""),
    speed_coeff := cAtof (argv.getD 6 ""),
    acc_coeff := cAtof (argv.getD 7 ""),
    steer_coeff := cAtof (argv.getD 8 ""),
    consec_acc_coeff := cAtof (argv.getD 9 ""),
    consec_steer_coeff := cAtof (argv.getD 10 ""),
    debug := dbg }

/-- `main` (lines 340-382), up to the point where `mpc_node.loop()` is
entered: `argc` must equal 12 (too many and too few both `return 1`); the
eleven values are read with `atoi`/`atof` (which cannot fail); the only
validated value is `argv[11]`, which must be the string `true` or `false`
(anything else prints a diagnostic and returns 1). The over-large-latency
check is a non-fatal warning and does not affect the outcome. -/
def cMain (argv : List String) : MainOutcome :=
  if argv.length = 12 then
    if argv.getD 11 "" = "true" then MainOutcome.enterLoop (parseParams argv true)
    else if argv.getD 11 "" = "false" then MainOutcome.enterLoop (parseParams argv false)
    else MainOutcome.exitFailure
  else MainOutcome.exitFailure

/-! ## Helper lemmas: the stability guard -/

lemma fbGo_ge (D : ℕ) (δ : K) :
    ∀ (l : List K) (p : K) (i : ℕ), i ≤ fbGo D δ p i l := by
  intro l
  induction l with
  | nil => intro p i; simp [fbGo]
  | cons x rest ih =>
      intro p i
      by_cases h : D < i ∧ x - p < δ
      · simp [fbGo, h]
      · simp only [fbGo, if_neg h]
        exact le_trans (Nat.le_succ i) (ih x (i + 1))

lemma fbGo_le (D : ℕ) (δ : K) :
    ∀ (l : List K) (p : K) (i : ℕ), fbGo D δ p i l ≤ i + l.length := by
  intro l
  induction l with
  | nil => intro p i; simp [fbGo]
  | cons x rest ih =>
      intro p i
      by_cases h : D < i ∧ x - p < δ
      · simp [fbGo, h]
      · simp only [fbGo, if_neg h, List.length_cons]
        have := ih x (i + 1)
        omega

lemma sgGo_eq_take (D : ℕ) (δ : K) :
    ∀ (l : List (K × K)) (p : K) (i : ℕ),
      sgGo D δ p i l = l.take (fbGo D δ p i (l.map Prod.fst) - i) := by
  intro l
  induction l with
  | nil => intro p i; simp [sgGo, fbGo]
  | cons q rest ih =>
      intro p i
      obtain ⟨x, y⟩ := q
      by_cases h : D < i ∧ x - p < δ
      · simp [sgGo, fbGo, h]
      · simp only [sgGo, fbGo, List.map_cons, if_neg h]
        have h1 : i + 1 ≤ fbGo D δ x (i + 1) (rest.map Prod.fst) := fbGo_ge D δ _ _ _
        have h2 : fbGo D δ x (i + 1) (rest.map Prod.fst) - i =
            (fbGo D δ x (i + 1) (rest.map Prod.fst) - (i + 1)) + 1 := by omega
        rw [h2, List.take_succ_cons, ih x (i + 1)]

lemma fbGo_all_ok (D : ℕ) (δ : K) :
    ∀ (l : List K) (p : K) (i : ℕ),
      (∀ j, j < l.length → D < i + j → δ ≤ l.getD j 0 - (p :: l).getD j 0) →
      fbGo D δ p i l = i + l.length := by
  intro l
  induction l with
  | nil => intro p i _; simp [fbGo]
  | cons x rest ih =>
      intro p i hok
      have hx : ¬(D < i ∧ x - p < δ) := by
        rintro ⟨hDi, hlt⟩
        have := hok 0 (by simp) (by simpa using hDi)
        simp at this
        exact absurd hlt (not_lt.mpr this)
      simp only [fbGo, if_neg hx, List.length_cons]
      have : fbGo D δ x (i + 1) rest = (i + 1) + rest.length := by
        apply ih
        intro j hj hDj
        have := hok (j + 1) (by simpa using Nat.succ_lt_succ hj) (by omega)
        simpa using this
      omega

lemma fbGo_break_at (D : ℕ) (δ : K) :
    ∀ (l : List K) (p : K) (i k : ℕ),
      k < l.length → D < i + k →
      l.getD k 0 - (p :: l).getD k 0 < δ →
      (∀ j, j < k → D < i + j → δ ≤ l.getD j 0 - (p :: l).getD j 0) →
      fbGo D δ p i l = i + k := by
  intro l
  induction l with
  | nil => intro p i k hk; simp at hk
  | cons x rest ih =>
      intro p i k hk hDk hviol hok
      cases k with
      | zero =>
          have hx : D < i ∧ x - p < δ := by
            constructor
            · simpa using hDk
            · simpa using hviol
          simp [fbGo, hx]
      | succ k' =>
          have hx : ¬(D < i ∧ x - p < δ) := by
            rintro ⟨hDi, hlt⟩
            have := hok 0 (Nat.succ_pos k') (by simpa using hDi)
            simp at this
            exact absurd hlt (not_lt.mpr this)
          simp only [fbGo, if_neg hx]
          have : fbGo D δ x (i + 1) rest = (i + 1) + k' := by
            apply ih x (i + 1) k'
            · simpa using Nat.lt_of_succ_lt_succ hk
            · omega
            · simpa using hviol
            · intro j hj hDj
              have := hok (j + 1) (Nat.succ_lt_succ hj) (by omega)
              simpa using this
          omega

lemma sgGo_length_ge (D : ℕ) (δ : K) :
    ∀ (l : List (K × K)) (p : K) (i : ℕ),
      min l.length (D + 1 - i) ≤ (sgGo D δ p i l).length := by
  intro l
  induction l with
  | nil => intro p i; simp [sgGo]
  | cons q rest ih =>
      intro p i
      obtain ⟨x, y⟩ := q
      by_cases h : D < i ∧ x - p < δ
      · have : D + 1 - i = 0 := by omega
        simp [sgGo, h, this]
      · simp only [sgGo, if_neg h, List.length_cons]
        have := ih x (i + 1)
        omega

lemma stabilityGuard_length_ge (pts : List (K × K)) (D : ℕ) (δ : K) :
    min pts.length (D + 1) ≤ (stabilityGuard pts D δ).length := by
  have := sgGo_length_ge D δ pts 0 0
  simpa [stabilityGuard] using this

lemma windowExtract_length (xs ys : List K) (base : Int) (count stride : ℕ) :
    (windowExtract xs ys base count stride).length = count := by
  simp [windowExtract]

/-! ## Helper lemmas: the loop body and the event model -/

lemma loopBody_preserves (cfg : LoopCfg K) (ext : LoopExt K) (st : NodeState K) :
    ((loopBody cfg ext st).st').pts_x = st.pts_x ∧
    ((loopBody cfg ext st).st').pts_y = st.pts_y ∧
    ((loopBody cfg ext st).st').pts_OK = st.pts_OK ∧
    ((loopBody cfg ext st).st').speed_OK = st.speed_OK ∧
    ((loopBody cfg ext st).st').pos_OK = st.pos_OK ∧
    ((loopBody cfg ext st).st').psi_OK = st.psi_OK ∧
    ((loopBody cfg ext st).st').throttle = st.throttle := by
  cases hr : readyFlags st <;> simp [loopBody, hr]

lemma loopBody_not_ready (cfg : LoopCfg K) (ext : LoopExt K) (st : NodeState K)
    (h : readyFlags st = false) :
    loopBody cfg ext st =
      ⟨st, none, false, some (st.pts_OK, st.speed_OK, st.pos_OK, st.psi_OK),
       none, none, none⟩ := by
  simp [loopBody, h]

lemma loopBody_predicted (cfg : LoopCfg K) (ext : LoopExt K) (st : NodeState K)
    (h : readyFlags st = true) :
    (loopBody cfg ext st).predicted = some (specLatencyStep cfg ext st) := by
  simp [loopBody, h, specLatencyStep]

lemma iterateTicks_not_ready (cfg : LoopCfg K) (ext : LoopExt K) (st : NodeState K)
    (h : readyFlags st = false) :
    ∀ n, iterateTicks cfg ext n st = st := by
  intro n
  induction n with
  | zero => rfl
  | succ n ih =>
      have hst : (loopBody cfg ext st).st' = st := by rw [loopBody_not_ready cfg ext st h]
      simp only [iterateTicks, hst]
      exact ih

lemma applyEvent_ready (cfg : LoopCfg K) (ext : LoopExt K) (at2 : K → K → K)
    (e : Event K) (st : NodeState K) (h : readyFlags st = true) :
    readyFlags (applyEvent cfg ext at2 e st) = true := by
  simp only [readyFlags, Bool.and_eq_true] at h
  obtain ⟨⟨⟨h1, h2⟩, h3⟩, h4⟩ := h
  cases e with
  | centerline points => simp [applyEvent, centerline_cb, readyFlags, h2, h3, h4]
  | odom v => simp [applyEvent, odom_cb, readyFlags, h1, h3, h4]
  | pfPose px py ow ox oy oz =>
      simp [applyEvent, pf_pose_odom_cb, readyFlags, h1, h2]
  | tick =>
      obtain ⟨_, _, e3, e4, e5, e6, _⟩ := loopBody_preserves cfg ext st
      simp [applyEvent, readyFlags, e3, e4, e5, e6, h1, h2, h3, h4]

lemma runEvents_ready (cfg : LoopCfg K) (ext : LoopExt K) (at2 : K → K → K) :
    ∀ (es : List (Event K)) (st : NodeState K),
      readyFlags st = true → readyFlags (runEvents cfg ext at2 es st) = true := by
  intro es
  induction es with
  | nil => intro st h; simpa [runEvents] using h
  | cons e rest ih =>
      intro st h
      have h1 := applyEvent_ready cfg ext at2 e st h
      simpa [runEvents] using ih (applyEvent cfg ext at2 e st) h1

/-! ## Helper lemmas: nearest-point search -/

lemma fcAux_spec (px py : K) :
    ∀ (l : List (K × K)) (i : ℕ) (bi : Int) (bd : K),
      (fcAux px py l i (bi, bd) = (bi, bd) ∧
        ∀ j, j < l.length → bd ≤ sqDist px py (l.getD j (0, 0))) ∨
      (∃ j, j < l.length ∧
        (fcAux px py l i (bi, bd)).1 = ((i + j : ℕ) : Int) ∧
        (fcAux px py l i (bi, bd)).2 = sqDist px py (l.getD j (0, 0)) ∧
        (fcAux px py l i (bi, bd)).2 < bd ∧
        (∀ j2, j2 < l.length →
          (fcAux px py l i (bi, bd)).2 ≤ sqDist px py (l.getD j2 (0, 0))) ∧
        (∀ j2, j2 < j →
          (fcAux px py l i (bi, bd)).2 < sqDist px py (l.getD j2 (0, 0)))) := by
  intro l
  induction l with
  | nil =>
      intro i bi bd
      left
      exact ⟨rfl, by intro j hj; simp at hj⟩
  | cons q rest ih =>
      intro i bi bd
      by_cases hlt : sqDist px py q < bd
      · have heq : fcAux px py (q :: rest) i (bi, bd) =
            fcAux px py rest (i + 1) ((i : Int), sqDist px py q) := by
          simp [fcAux, hlt]
        rcases ih (i + 1) (i : Int) (sqDist px py q) with ⟨hfix, hall⟩ | ⟨j, hj, h1, h2, h3, h4, h5⟩
        · right
          refine ⟨0, by simp, ?_, ?_, ?_, ?_, ?_⟩
          · rw [heq, hfix]; simp
          · rw [heq, hfix]; simp
          · rw [heq, hfix]; simpa using hlt
          · intro j2 hj2
            rw [heq, hfix]
            cases j2 with
            | zero => simp
            | succ j2' =>
                simpa using hall j2' (by simpa using Nat.lt_of_succ_lt_succ hj2)
          · intro j2 hj2; omega
        · right
          refine ⟨j + 1, by simpa using Nat.succ_lt_succ hj, ?_, ?_, ?_, ?_, ?_⟩
          · rw [heq, h1]; congr 1; omega
          · rw [heq, h2]; simp
          · rw [heq]; exact lt_trans h3 hlt
          · intro j2 hj2
            rw [heq]
            cases j2 with
            | zero => simpa using le_of_lt h3
            | succ j2' =>
                simpa using h4 j2' (by simpa using Nat.lt_of_succ_lt_succ hj2)
          · intro j2 hj2
            rw [heq]
            cases j2 with
            | zero => simpa using h3
            | succ j2' => simpa using h5 j2' (by omega)
      · have heq : fcAux px py (q :: rest) i (bi, bd) =
            fcAux px py rest (i + 1) (bi, bd) := by
          simp [fcAux, hlt]
        rcases ih (i + 1) bi bd with ⟨hfix, hall⟩ | ⟨j, hj, h1, h2, h3, h4, h5⟩
        · left
          refine ⟨by rw [heq, hfix], ?_⟩
          intro j2 hj2
          cases j2 with
          | zero => simpa using not_lt.mp hlt
          | succ j2' =>
              simpa using hall j2' (by simpa using Nat.lt_of_succ_lt_succ hj2)
        · right
          refine ⟨j + 1, by simpa using Nat.succ_lt_succ hj, ?_, ?_, ?_, ?_, ?_⟩
          · rw [heq, h1]; congr 1; omega
          · rw [heq, h2]; simp
          · rw [heq]; exact h3
          · intro j2 hj2
            rw [heq]
            cases j2 with
            | zero => simpa using le_of_lt (lt_of_lt_of_le h3 (not_lt.mp hlt))
            | succ j2' =>
                simpa using h4 j2' (by simpa using Nat.lt_of_succ_lt_succ hj2)
          · intro j2 hj2
            rw [heq]
            cases j2 with
            | zero => simpa using lt_of_lt_of_le h3 (not_lt.mp hlt)
            | succ j2' => simpa using h5 j2' (by omega)

/-! ## Claim theorems -/

/-- C1 (amended): for every non-empty path, given as parallel coordinate
lists, and every query point for which at least one path point has squared
distance below the initialization sentinel `999999999`, `find_closest`
returns an index into the path with no strictly smaller squared distance at
any other index, and ties resolve to the lowest index. (The sentinel
hypothesis is forced: the scan starts from `closest_dist = 999999999` and
only updates on a strict `<`, so a query point farther than that from every
path point leaves the initial `closest_idx = -1` in place.) -/
theorem C1_find_closest (xs ys : List K) (px py : K)
    (hlen : ys.length = xs.length)
    (hnear : ∃ j, j < xs.length ∧
      sqDist px py ((xs.zip ys).getD j (0, 0)) < 999999999) :
    ∃ i : ℕ, find_closest xs ys px py = (i : Int) ∧ i < xs.length ∧
      (∀ j, j < xs.length →
        sqDist px py ((xs.zip ys).getD i (0, 0)) ≤
          sqDist px py ((xs.zip ys).getD j (0, 0))) ∧
      (∀ j, j < xs.length →
        sqDist px py ((xs.zip ys).getD j (0, 0)) =
          sqDist px py ((xs.zip ys).getD i (0, 0)) → i ≤ j) := by
  have hz : (xs.zip ys).length = xs.length := by
    rw [List.length_zip, hlen, Nat.min_self]
  rcases fcAux_spec px py (xs.zip ys) 0 (-1) 999999999 with
    ⟨_, hall⟩ | ⟨j, hj, h1, h2, h3, h4, h5⟩
  · obtain ⟨j0, hj0, hlt⟩ := hnear
    have := hall j0 (by rw [hz]; exact hj0)
    exact absurd hlt (not_lt.mpr this)
  · refine ⟨j, ?_, by rw [hz] at hj; exact hj, ?_, ?_⟩
    · simpa [find_closest] using h1
    · intro j2 hj2
      have := h4 j2 (by rw [hz]; exact hj2)
      rw [h2] at this
      exact this
    · intro j2 hj2 heq
      by_contra hlt2
      push_neg at hlt2
      have := h5 j2 hlt2
      rw [h2, heq] at this
      exact lt_irrefl _ this

/-- C1 counterexample to the claim as stated: for the non-empty path
`[(0, 0)]` and the query point `(31623, 0)` the squared distance is
`31623^2 = 1000013129 ≥ 999999999`, so the strict-update scan never fires
and `find_closest` returns `-1`, which is not an index into the path. -/
theorem C1_counterexample : find_closest ([0] : List ℚ) [0] 31623 0 = -1 := by
  norm_num [find_closest, fcAux, sqDist]

/-- C1 witness: the amended theorem applied to the concrete path
`[(1, 0), (5, 0)]` and query `(0, 0)`. -/
theorem C1_witness :
    ∃ i : ℕ, find_closest ([1, 5] : List ℚ) [0, 0] 0 0 = (i : Int) ∧
      i < ([1, 5] : List ℚ).length ∧
      (∀ j, j < ([1, 5] : List ℚ).length →
        sqDist 0 0 ((([1, 5] : List ℚ).zip [0, 0]).getD i (0, 0)) ≤
          sqDist 0 0 ((([1, 5] : List ℚ).zip [0, 0]).getD j (0, 0))) ∧
      (∀ j, j < ([1, 5] : List ℚ).length →
        sqDist 0 0 ((([1, 5] : List ℚ).zip [0, 0]).getD j (0, 0)) =
          sqDist 0 0 ((([1, 5] : List ℚ).zip [0, 0]).getD i (0, 0)) → i ≤ j) :=
  C1_find_closest [1, 5] [0, 0] 0 0 rfl ⟨0, by norm_num, by norm_num [sqDist]⟩

/-- C2: the code's window index is NOT the mathematical modulo when the
back-shifted index is negative. In `int idx = (closest_idx + i*STEP_POLY) %
m_pts_x.size()` the signed `closest_idx` is converted to the unsigned
`size_t`, so for path length 3, back-shifted index `-1`, stride 1 and
`k = 0` the code computes `(2^64 - 1) mod 3 = 0` and selects path point 0,
while the claimed mathematical modulo gives `(-1) mod 3 = 2`, path point 2.
This evaluates the embedded code at that failing input. -/
theorem C2_window_index_divergence :
    wrapIdx64 (-1) 0 1 3 = 0 ∧ mathIdx (-1) 0 1 3 = 2 ∧
    windowExtract ([10, 20, 30] : List ℚ) [1, 2, 3] (-1) 1 1 = [(10, 1)] := by
  exact ⟨by decide, by decide, by decide⟩

/-- C3: the stability guard truncates the transformed window at the first
delta violation and nowhere else. Precisely: (a) the accepted list is the
prefix of the window up to the first position `k > POLY_DEGREE` whose
x-coordinate exceeds the previous point's by less than `X_DELTA_MIN_VALUE`
(so in particular the first `POLY_DEGREE + 1` points are always accepted,
and acceptance stops for good at the first violation — truncation, not
filtering); (b) a window all of whose checked x-deltas are at least the
threshold is accepted in full; (c) a window whose first violation is at
position `k` (`k > POLY_DEGREE`) yields exactly `k` accepted points. -/
theorem C3_stability_guard (pts : List (K × K)) (D : ℕ) (δ : K) :
    stabilityGuard pts D δ = pts.take (firstBreak (pts.map Prod.fst) D δ) ∧
    ((∀ i, D < i → i < pts.length →
        δ ≤ (pts.map Prod.fst).getD i 0 - (pts.map Prod.fst).getD (i - 1) 0) →
      stabilityGuard pts D δ = pts) ∧
    (∀ k, D < k → k < pts.length →
      (pts.map Prod.fst).getD k 0 - (pts.map Prod.fst).getD (k - 1) 0 < δ →
      (∀ i, D < i → i < k →
        δ ≤ (pts.map Prod.fst).getD i 0 - (pts.map Prod.fst).getD (i - 1) 0) →
      (stabilityGuard pts D δ).length = k ∧ stabilityGuard pts D δ = pts.take k) := by
  have hmaplen : (pts.map Prod.fst).length = pts.length := by simp
  have htake : stabilityGuard pts D δ =
      pts.take (firstBreak (pts.map Prod.fst) D δ) := by
    have := sgGo_eq_take D δ pts 0 0
    simpa [stabilityGuard, firstBreak] using this
  refine ⟨htake, ?_, ?_⟩
  · intro hok
    have hfb : firstBreak (pts.map Prod.fst) D δ = (pts.map Prod.fst).length := by
      have h := fbGo_all_ok D δ (pts.map Prod.fst) 0 0 ?_
      · simpa [firstBreak] using h
      · intro j hj hDj
        obtain ⟨j', rfl⟩ : ∃ j', j = j' + 1 := ⟨j - 1, by omega⟩
        have := hok (j' + 1) (by omega) (by rw [← hmaplen]; exact hj)
        simpa using this
    rw [htake, hfb, hmaplen]
    exact List.take_length pts
  · intro k hDk hk hviol hok
    have hfb : firstBreak (pts.map Prod.fst) D δ = k := by
      have h := fbGo_break_at D δ (pts.map Prod.fst) 0 0 k
        (by rw [hmaplen]; exact hk) (by omega) ?_ ?_
      · simpa [firstBreak] using h
      · obtain ⟨k', rfl⟩ : ∃ k', k = k' + 1 := ⟨k - 1, by omega⟩
        simpa using hviol
      · intro j hj hDj
        obtain ⟨j', rfl⟩ : ∃ j', j = j' + 1 := ⟨j - 1, by omega⟩
        have := hok (j' + 1) (by omega) hj
        simpa using this
    constructor
    · rw [htake, hfb, List.length_take]
      omega
    · rw [htake, hfb]

/-- C3 witness: window `[(0,0), (1,0), (0,0)]` with degree 0 and threshold
`1/2`: the delta at position 2 is `0 - 1 = -1 < 1/2`, the delta at position
1 is `1 ≥ 1/2`, so exactly 2 points are accepted. -/
theorem C3_witness :
    (stabilityGuard [((0 : ℚ), 0), (1, 0), (0, 0)] 0 (1 / 2)).length = 2 ∧
    stabilityGuard [((0 : ℚ), 0), (1, 0), (0, 0)] 0 (1 / 2) =
      ([((0 : ℚ), 0), (1, 0), (0, 0)]).take 2 :=
  (C3_stability_guard [((0 : ℚ), 0), (1, 0), (0, 0)] 0 (1 / 2)).2.2 2
    (by norm_num) (by norm_num) (by norm_num)
    (by intro i h1 h2; interval_cases i; norm_num)

/-- C4: in every cycle with all readiness flags set, the latency-compensated
state published to the rest of the pipeline is exactly one explicit Euler
step of the kinematic bicycle model on the snapshot state, last commanded
steering and throttle, latency `L` and wheelbase `Lf`:
`v' = v + L*a`, `psi' = psi - L*(v'*delta/Lf)`, `x' = x + L*(v'*cos psi')`,
`y' = y + L*(v'*sin psi')`, with the updated `v'` and `psi'` used in the
subsequent equations. -/
theorem C4_latency_compensation (cfg : LoopCfg ℝ)
    (pf : List ℝ → List ℝ → ℕ → List ℝ) (sol : List ℝ → List ℝ → List ℝ)
    (st : NodeState ℝ) (h : readyFlags st = true) :
    (loopBody cfg ⟨Real.sin, Real.cos, Real.arctan, pf, sol⟩ st).predicted =
      some (st.speed + cfg.latency * st.throttle,
        st.psi - cfg.latency *
          ((st.speed + cfg.latency * st.throttle) * st.steer / cfg.lf),
        st.pos_x + cfg.latency * ((st.speed + cfg.latency * st.throttle) *
          Real.cos (st.psi - cfg.latency *
            ((st.speed + cfg.latency * st.throttle) * st.steer / cfg.lf))),
        st.pos_y + cfg.latency * ((st.speed + cfg.latency * st.throttle) *
          Real.sin (st.psi - cfg.latency *
            ((st.speed + cfg.latency * st.throttle) * st.steer / cfg.lf)))) := by
  simp [loopBody, h]

/-- C4 witness: with latency 5, wheelbase 1, speed 1, zero heading, zero
steering and zero throttle at position (3, 4), the compensated state is
`(1, 0, 8, 4)`. -/
theorem C4_witness :
    (loopBody (⟨5, 1, 0, 1, 1, 0, 0, 0⟩ : LoopCfg ℝ)
      ⟨Real.sin, Real.cos, Real.arctan, fun _ _ _ => [], fun _ _ => []⟩
      ⟨[0], [0], true, 1, true, 3, 4, true, 0, true, 0, 0⟩).predicted =
      some (1, 0, 8, 4) := by
  have h := C4_latency_compensation (⟨5, 1, 0, 1, 1, 0, 0, 0⟩ : LoopCfg ℝ)
    (fun _ _ _ => []) (fun _ _ => [])
    ⟨[0], [0], true, 1, true, 3, 4, true, 0, true, 0, 0⟩ rfl
  rw [h]
  norm_num

/-- C5: for every fitted coefficient vector `[c0, c1, ...]` the extracted
cross-track error is exactly `c0` (the polynomial at `x = 0`) and the
extracted heading error is exactly `-atan(c1)`; zero constant and linear
coefficients give `cte = 0` and `epsi = 0`. -/
theorem C5_error_extraction (c0 c1 : ℝ) (rest : List ℝ) :
    errorExtract Real.arctan (c0 :: c1 :: rest) = (c0, -Real.arctan c1) ∧
    (c0 = 0 → c1 = 0 → errorExtract Real.arctan (c0 :: c1 :: rest) = (0, 0)) := by
  constructor
  · simp [errorExtract, polyeval]
  · rintro rfl rfl
    simp [errorExtract, polyeval, Real.arctan_zero]

/-- C5 witness: the zero-coefficient case evaluated concretely. -/
theorem C5_witness : errorExtract Real.arctan [(0 : ℝ), 0] = (0, 0) :=
  (C5_error_extraction 0 0 []).2 rfl rfl

/-- C6 (amended): at the end of every Ready-state cycle only the steering is
recorded: the published steering command (the solver's first output remapped
through `CENTER_IN_DZIK - vars[0]`) is stored in `m_steer` and is what the
next cycle's latency compensator uses as delta, while `m_throttle` is left
unchanged (the solver's acceleration output `vars[1]` is never stored), so
the next cycle's compensator keeps using the previous throttle value. -/
theorem C6_actuator_recording (cfg : LoopCfg K) (ext : LoopExt K)
    (st : NodeState K) (h : readyFlags st = true) :
    (loopBody cfg ext st).publishedAngle = some ((loopBody cfg ext st).st').steer ∧
    ((loopBody cfg ext st).st').throttle = st.throttle ∧
    readyFlags ((loopBody cfg ext st).st') = true ∧
    (loopBody cfg ext ((loopBody cfg ext st).st')).predicted =
      some (specLatencyStep cfg ext ((loopBody cfg ext st).st')) := by
  obtain ⟨_, _, e3, e4, e5, e6, e7⟩ := loopBody_preserves cfg ext st
  have hr : readyFlags ((loopBody cfg ext st).st') = true := by
    simp only [readyFlags, e3, e4, e5, e6]
    simpa [readyFlags] using h
  refine ⟨?_, e7, hr, loopBody_predicted cfg ext _ hr⟩
  simp [loopBody, h]

/-- C6 counterexample to the claim as stated: a Ready cycle in which the
solver returns steering 1 and acceleration 5, yet the recorded throttle
stays 0 — the acceleration is not recorded as a "last commanded" value. -/
theorem C6_counterexample :
    ((loopBody (⟨0, 1, 0, 1, 1, 0, 0, 0⟩ : LoopCfg ℚ)
        ⟨fun _ => 0, fun _ => 1, fun x => x, fun _ _ _ => [0, 0], fun _ _ => [1, 5]⟩
        ⟨[0], [0], true, 0, true, 0, 0, true, 0, true, 0, 0⟩).st').throttle ≠ 5 := by
  norm_num [loopBody, readyFlags]

/-- C6 witness: the amended theorem at the same concrete Ready cycle: the
published angle is the recorded steering and the throttle is unchanged. -/
theorem C6_witness :
    (loopBody (⟨0, 1, 0, 1, 1, 0, 0, 0⟩ : LoopCfg ℚ)
        ⟨fun _ => 0, fun _ => 1, fun x => x, fun _ _ _ => [0, 0], fun _ _ => [1, 5]⟩
        ⟨[0], [0], true, 0, true, 0, 0, true, 0, true, 0, 0⟩).publishedAngle =
      some (((loopBody (⟨0, 1, 0, 1, 1, 0, 0, 0⟩ : LoopCfg ℚ)
        ⟨fun _ => 0, fun _ => 1, fun x => x, fun _ _ _ => [0, 0], fun _ _ => [1, 5]⟩
        ⟨[0], [0], true, 0, true, 0, 0, true, 0, true, 0, 0⟩).st').steer) ∧
    ((loopBody (⟨0, 1, 0, 1, 1, 0, 0, 0⟩ : LoopCfg ℚ)
        ⟨fun _ => 0, fun _ => 1, fun x => x, fun _ _ _ => [0, 0], fun _ _ => [1, 5]⟩
        ⟨[0], [0], true, 0, true, 0, 0, true, 0, true, 0, 0⟩).st').throttle = 0 := by
  have h := C6_actuator_recording (⟨0, 1, 0, 1, 1, 0, 0, 0⟩ : LoopCfg ℚ)
    ⟨fun _ => 0, fun _ => 1, fun x => x, fun _ _ _ => [0, 0], fun _ _ => [1, 5]⟩
    ⟨[0], [0], true, 0, true, 0, 0, true, 0, true, 0, 0⟩ rfl
  exact ⟨h.1, h.2.1⟩

/-- C7: in every loop iteration in which at least one readiness flag is
false, nothing is published, the solver is not invoked, the state is left
untouched, and the only output is the diagnostic naming the four readiness
flags; consequently, starting from such a state, any number of further
iterations without input still publishes nothing and never calls the
solver. -/
theorem C7_awaiting_inputs (cfg : LoopCfg K) (ext : LoopExt K)
    (st : NodeState K) (h : readyFlags st = false) :
    (loopBody cfg ext st).publishedAngle = none ∧
    (loopBody cfg ext st).solverCalled = false ∧
    (loopBody cfg ext st).warnFlags =
      some (st.pts_OK, st.speed_OK, st.pos_OK, st.psi_OK) ∧
    (loopBody cfg ext st).st' = st ∧
    ∀ n, (loopBody cfg ext (iterateTicks cfg ext n st)).publishedAngle = none ∧
      (loopBody cfg ext (iterateTicks cfg ext n st)).solverCalled = false := by
  have hb := loopBody_not_ready cfg ext st h
  refine ⟨by rw [hb], by rw [hb], by rw [hb], by rw [hb], ?_⟩
  intro n
  rw [iterateTicks_not_ready cfg ext st h n, hb]
  exact ⟨rfl, rfl⟩

/-- C7 witness: the freshly constructed node (all flags false) publishes
nothing and never calls the solver, also after three further iterations. -/
theorem C7_witness :
    (loopBody (⟨0, 1, 0, 1, 1, 0, 0, 0⟩ : LoopCfg ℚ)
      ⟨fun _ => 0, fun _ => 1, fun x => x, fun _ _ _ => [], fun _ _ => []⟩
      (initState 0 0 0 0)).publishedAngle = none ∧
    (loopBody (⟨0, 1, 0, 1, 1, 0, 0, 0⟩ : LoopCfg ℚ)
      ⟨fun _ => 0, fun _ => 1, fun x => x, fun _ _ _ => [], fun _ _ => []⟩
      (initState 0 0 0 0)).solverCalled = false ∧
    (loopBody (⟨0, 1, 0, 1, 1, 0, 0, 0⟩ : LoopCfg ℚ)
      ⟨fun _ => 0, fun _ => 1, fun x => x, fun _ _ _ => [], fun _ _ => []⟩
      (iterateTicks (⟨0, 1, 0, 1, 1, 0, 0, 0⟩ : LoopCfg ℚ)
        ⟨fun _ => 0, fun _ => 1, fun x => x, fun _ _ _ => [], fun _ _ => []⟩
        3 (initState 0 0 0 0))).publishedAngle = none := by
  have h := C7_awaiting_inputs (⟨0, 1, 0, 1, 1, 0, 0, 0⟩ : LoopCfg ℚ)
    ⟨fun _ => 0, fun _ => 1, fun x => x, fun _ _ _ => [], fun _ _ => []⟩
    (initState 0 0 0 0) rfl
  exact ⟨h.1, h.2.1, (h.2.2.2.2 3).1⟩

/-- C8: readiness is monotonic. The constructor starts all four flags
false; each callback sets its flag(s) to true; no event (callback or loop
iteration) ever resets a flag; hence once the conjunction of all four flags
holds it holds after any further sequence of events. -/
theorem C8_readiness_monotonic (cfg : LoopCfg K) (ext : LoopExt K)
    (at2 : K → K → K) :
    (∀ x0 y0 v0 p0 : K,
      (initState x0 y0 v0 p0).pts_OK = false ∧
      (initState x0 y0 v0 p0).speed_OK = false ∧
      (initState x0 y0 v0 p0).pos_OK = false ∧
      (initState x0 y0 v0 p0).psi_OK = false) ∧
    (∀ (e : Event K) (st : NodeState K),
      (st.pts_OK = true → (applyEvent cfg ext at2 e st).pts_OK = true) ∧
      (st.speed_OK = true → (applyEvent cfg ext at2 e st).speed_OK = true) ∧
      (st.pos_OK = true → (applyEvent cfg ext at2 e st).pos_OK = true) ∧
      (st.psi_OK = true → (applyEvent cfg ext at2 e st).psi_OK = true)) ∧
    (∀ (points : List (K × K)) (st : NodeState K),
      (applyEvent cfg ext at2 (Event.centerline points) st).pts_OK = true) ∧
    (∀ (v : K) (st : NodeState K),
      (applyEvent cfg ext at2 (Event.odom v) st).speed_OK = true) ∧
    (∀ (px py ow ox oy oz : K) (st : NodeState K),
      (applyEvent cfg ext at2 (Event.pfPose px py ow ox oy oz) st).pos_OK = true ∧
      (applyEvent cfg ext at2 (Event.pfPose px py ow ox oy oz) st).psi_OK = true) ∧
    (∀ (es : List (Event K)) (st : NodeState K),
      readyFlags st = true → readyFlags (runEvents cfg ext at2 es st) = true) := by
  refine ⟨?_, ?_, ?_, ?_, ?_, runEvents_ready cfg ext at2⟩
  · intro x0 y0 v0 p0
    exact ⟨rfl, rfl, rfl, rfl⟩
  · intro e st
    obtain ⟨_, _, p3, p4, p5, p6, _⟩ := loopBody_preserves cfg ext st
    cases e with
    | centerline points =>
        exact ⟨fun _ => by simp [applyEvent, centerline_cb],
          fun h => by simpa [applyEvent, centerline_cb] using h,
          fun h => by simpa [applyEvent, centerline_cb] using h,
          fun h => by simpa [applyEvent, centerline_cb] using h⟩
    | odom v =>
        exact ⟨fun h => by simpa [applyEvent, odom_cb] using h,
          fun _ => by simp [applyEvent, odom_cb],
          fun h => by simpa [applyEvent, odom_cb] using h,
          fun h => by simpa [applyEvent, odom_cb] using h⟩
    | pfPose px py ow ox oy oz =>
        exact ⟨fun h => by simpa [applyEvent, pf_pose_odom_cb] using h,
          fun h => by simpa [applyEvent, pf_pose_odom_cb] using h,
          fun _ => by simp [applyEvent, pf_pose_odom_cb],
          fun _ => by simp [applyEvent, pf_pose_odom_cb]⟩
    | tick =>
        exact ⟨fun h => by simpa [applyEvent, p3] using h,
          fun h => by simpa [applyEvent, p4] using h,
          fun h => by simpa [applyEvent, p5] using h,
          fun h => by simpa [applyEvent, p6] using h⟩
  · intro points st
    simp [applyEvent, centerline_cb]
  · intro v st
    simp [applyEvent, odom_cb]
  · intro px py ow ox oy oz st
    simp [applyEvent, pf_pose_odom_cb]

/-- C8 witness: on a fully ready state, an odometry update preserves the
path flag, and a run of a loop tick followed by an odometry update
preserves full readiness. -/
theorem C8_witness :
    (applyEvent (⟨0, 1, 0, 1, 1, 0, 0, 0⟩ : LoopCfg ℚ)
      ⟨fun _ => 0, fun _ => 1, fun x => x, fun _ _ _ => [], fun _ _ => []⟩
      (fun _ _ => 0) (Event.odom 1)
      ⟨[0], [0], true, 0, true, 0, 0, true, 0, true, 0, 0⟩).pts_OK = true ∧
    readyFlags (runEvents (⟨0, 1, 0, 1, 1, 0, 0, 0⟩ : LoopCfg ℚ)
      ⟨fun _ => 0, fun _ => 1, fun x => x, fun _ _ _ => [], fun _ _ => []⟩
      (fun _ _ => 0) [Event.tick, Event.odom 2]
      ⟨[0], [0], true, 0, true, 0, 0, true, 0, true, 0, 0⟩) = true := by
  have h := C8_readiness_monotonic (⟨0, 1, 0, 1, 1, 0, 0, 0⟩ : LoopCfg ℚ)
    ⟨fun _ => 0, fun _ => 1, fun x => x, fun _ _ _ => [], fun _ _ => []⟩
    (fun _ _ => 0)
  exact ⟨(h.2.1 (Event.odom 1)
      ⟨[0], [0], true, 0, true, 0, 0, true, 0, true, 0, 0⟩).1 rfl,
    h.2.2.2.2.2 [Event.tick, Event.odom 2]
      ⟨[0], [0], true, 0, true, 0, 0, true, 0, true, 0, 0⟩ rfl⟩

/-- C9 (amended): the startup gate exits non-zero exactly when the argument
count differs from the expected 12 (program name plus eleven values) or the
debug argument is neither `true` nor `false`; the numeric
arguments are read with `atoi`/`atof`, which cannot signal an error, so a
malformed numeric argument is silently parsed (as 0 when unparsable) and
does not prevent entering the control loop. -/
theorem C9_startup_gate (argv : List String) :
    cMain argv = MainOutcome.exitFailure ↔
      argv.length ≠ 12 ∨
        (argv.getD 11 "" ≠ "true" ∧ argv.getD 11 "" ≠ "false") := by
  unfold cMain
  by_cases h12 : argv.length = 12
  · rw [if_pos h12]
    by_cases ht : argv.getD 11 "" = "true"
    · rw [if_pos ht]
      constructor
      · intro hc; exact absurd hc (by simp)
      · rintro (hc | ⟨h1, _⟩)
        · exact absurd h12 hc
        · exact absurd ht h1
    · rw [if_neg ht]
      by_cases hf : argv.getD 11 "" = "false"
      · rw [if_pos hf]
        constructor
        · intro hc; exact absurd hc (by simp)
        · rintro (hc | ⟨_, h2⟩)
          · exact absurd h12 hc
          · exact absurd hf h2
      · rw [if_neg hf]
        exact ⟨fun _ => Or.inr ⟨ht, hf⟩, fun _ => rfl⟩
  · rw [if_neg h12]
    simp [h12]

/-- C9 counterexample to the claim as stated: a 12-element argument vector
whose latency-step argument is the malformed numeric string `abc` does not
make the process exit; `atof` yields 0 for it and the control loop is
entered with `dt = 0`. -/
theorem C9_counterexample :
    cMain ["mpc_node", "1", "abc", "1", "1", "1", "1", "1", "1", "1", "1", "true"] =
      MainOutcome.enterLoop ⟨1, 0, 1, 1, 1, 1, 1, 1, 1, 1, true⟩ := by
  decide

/-- C10 (implicit): in every Ready-state cycle the stability guard hands
`polyfit` at least `min(NUM_STEPS_POLY, POLY_DEGREE + 1)` points; in
particular, when the configured window length exceeds the polynomial degree
the fit always receives at least `POLY_DEGREE + 1` sample points. -/
theorem C10_fit_points (cfg : LoopCfg K) (ext : LoopExt K) (st : NodeState K)
    (h : readyFlags st = true) :
    ∃ m, (loopBody cfg ext st).fitCount = some m ∧
      min cfg.numStepsPoly (cfg.polyDegree + 1) ≤ m ∧
      (cfg.polyDegree < cfg.numStepsPoly → cfg.polyDegree + 1 ≤ m) := by
  have hbound : ∀ (l : List (K × K)) (δ : K), l.length = cfg.numStepsPoly →
      min cfg.numStepsPoly (cfg.polyDegree + 1) ≤
        (stabilityGuard l cfg.polyDegree δ).length ∧
      (cfg.polyDegree < cfg.numStepsPoly →
        cfg.polyDegree + 1 ≤ (stabilityGuard l cfg.polyDegree δ).length) := by
    intro l δ hl
    have hg := stabilityGuard_length_ge l cfg.polyDegree δ
    rw [hl] at hg
    exact ⟨hg, fun _ => by omega⟩
  simp only [loopBody, h, if_true]
  exact ⟨_, rfl, hbound _ cfg.xDeltaMin (by rw [List.length_map, windowExtract_length])⟩

/-- C10 witness: a Ready cycle with window length 3 and degree 1 accepts at
least 2 points. -/
theorem C10_witness :
    ∃ m : ℕ, (loopBody (⟨0, 1, 0, 3, 1, 1, 0, 0⟩ : LoopCfg ℚ)
      ⟨fun _ => 0, fun _ => 1, fun x => x, fun _ _ _ => [0, 0], fun _ _ => [1, 5]⟩
      ⟨[0, 1, 2], [0, 0, 0], true, 0, true, 0, 0, true, 0, true, 0, 0⟩).fitCount =
        some m ∧
      min 3 (1 + 1) ≤ m ∧ (1 < 3 → 1 + 1 ≤ m) :=
  C10_fit_points (⟨0, 1, 0, 3, 1, 1, 0, 0⟩ : LoopCfg ℚ)
    ⟨fun _ => 0, fun _ => 1, fun x => x, fun _ _ _ => [0, 0], fun _ _ => [1, 5]⟩
    ⟨[0, 1, 2], [0, 0, 0], true, 0, true, 0, 0, true, 0, true, 0, 0⟩ rfl

end MpcNode
